import Mathlib

/-
Verification of the sim-os CPU scheduler simulation.

The definitions below are a shallow embedding of the engine in
src/src/simulations/Scheduler.hpp (the templated multi-core scheduler),
of the metrics it exposes, of the DSL parser in src/src/lang/Parser.cpp,
and of the random-process builtin in src/src/lang/Interpreter.hpp.

Modelling conventions:
- std::deque / std::vector of processes become Lean lists; the engine is
  the unique owner of every live process (each shared_ptr is referenced by
  exactly one queue slot at a time), so the reference-counted handles are
  modelled by values moved between queues.
- std::size_t arithmetic never overflows in the scenarios considered and
  is modelled by Nat; the asserted preconditions duration > 0 are noted
  where the source asserts them.
- float resource_usage is only ever copied by the engine, never computed
  with; it is modelled by Rat.  The throughput / previous_finished_count
  telemetry fields are double-valued, never read back by the engine's
  control flow, and are omitted.
- a C++ loop that provably never terminates (the sidetrack_processes scan
  re-testing the same element with unchanged state forever) is modelled by
  the embedding returning none.
-/

namespace SimOs

inductive EventKind where
  | Cpu : EventKind
  | Io : EventKind
deriving DecidableEq

structure Event where
  kind : EventKind
  duration : Nat
  resource_usage : Rat
deriving DecidableEq

structure Process where
  name : String
  pid : Nat
  arrival : Nat
  events : List Event
  start_time : Option Nat := none
  finish_time : Option Nat := none
deriving DecidableEq

/-- MAX_THREADS from Scheduler.hpp. -/
def MAX_THREADS : Nat := 9

/-- State of Simulations::Scheduler.  The field `processes` holds the
per-core arrival queues, exactly as in the source.  The schedule policy
(a template parameter in the source) is passed to `step` as a function
argument.  -/
structure Sched where
  running : List (Option Process)
  processes : List (List Process)
  waiting : List (List Process)
  ready : List (List Process)
  timer : Nat
  cpu_usage : List Rat
  max_processes : Nat
  max_events_per_process : Nat
  max_single_event_duration : Nat
  max_arrival_time : Nat
  threads_count : Nat
  next_thread : Nat
  finished : List Process
deriving DecidableEq

/-- A freshly constructed scheduler: all queues empty, timer 0, bound
fields at numeric_limits<size_t>::max(), threads_count = MAX_THREADS. -/
def initSched : Sched where
  running := List.replicate MAX_THREADS none
  processes := List.replicate MAX_THREADS []
  waiting := List.replicate MAX_THREADS []
  ready := List.replicate MAX_THREADS []
  timer := 0
  cpu_usage := List.replicate MAX_THREADS 0
  max_processes := 2 ^ 64 - 1
  max_events_per_process := 2 ^ 64 - 1
  max_single_event_duration := 2 ^ 64 - 1
  max_arrival_time := 2 ^ 64 - 1
  threads_count := MAX_THREADS
  next_thread := 0
  finished := []

/-- Scheduler::complete: no running slot set and every queue of the
MAX_THREADS-sized arrays empty (std::ranges::any_of over the full array). -/
def complete (s : Sched) : Bool :=
  !(s.running.any Option.isSome) && !(s.processes.any fun q => !q.isEmpty)
    && !(s.ready.any fun q => !q.isEmpty) && !(s.waiting.any fun q => !q.isEmpty)

/-- Scheduler::emplace_process: push the new process to the back of
processes[next_thread] and advance the round-robin cursor.  No pid check
of any kind is performed here. -/
def emplace_process (name : String) (pid arrival : Nat) (events : List Event)
    (s : Sched) : Sched :=
  { s with
    processes := s.processes.set s.next_thread
      ((s.processes.getD s.next_thread []) ++
        [{ name := name, pid := pid, arrival := arrival, events := events }])
    next_thread := (s.next_thread + 1) % s.threads_count }

/-- Scheduler::ensure_pid_is_unique: the pid differs from the running
process of core i (if any) and from every pid in ready[i] and waiting[i].
arrivals[i], the other cores and `finished` are not consulted. -/
def ensure_pid_is_unique (s : Sched) (i : Nat) (pid : Nat) : Bool :=
  (match s.running.getD i none with
   | none => true
   | some p => p.pid != pid)
  && (s.ready.getD i []).all (fun p => p.pid != pid)
  && (s.waiting.getD i []).all (fun p => p.pid != pid)

/-- Scheduler::dispatch_process_by_first_event.  On a CPU front event the
source executes
  process->start_time = !process->start_time.has_value()
                          ? std::optional { timer } : std::nullopt;
so a start_time that is already set is overwritten with nullopt.  The
source asserts events nonempty; the empty case is unreachable from its
call sites. -/
def dispatch_process_by_first_event (i : Nat) (p : Process) (s : Sched) : Sched :=
  match p.events with
  | [] => s
  | e :: _ =>
    match e.kind with
    | EventKind.Cpu =>
      let p := { p with start_time := if p.start_time.isNone then some s.timer else none }
      { s with ready := s.ready.set i ((s.ready.getD i []) ++ [p]) }
    | EventKind.Io =>
      { s with waiting := s.waiting.set i ((s.waiting.getD i []) ++ [p]) }

/-- Loop body of Scheduler::sidetrack_processes over arrivals[i].  `kept`
accumulates the processes the iterator has passed.  When the pid check or
the nonempty-events check fails the source prints a diagnostic and
executes `continue` WITHOUT advancing the iterator and without erasing,
so the loop re-tests the same element with unchanged state forever; that
divergence is modelled by `none`. -/
def sidetrack_go (i : Nat) (s : Sched) (kept : List Process) :
    List Process → Option Sched
  | [] => some { s with processes := s.processes.set i kept }
  | p :: rest =>
    if p.arrival != s.timer then
      sidetrack_go i s (kept ++ [p]) rest
    else if !(ensure_pid_is_unique s i p.pid) then
      none
    else if p.events.isEmpty then
      none
    else
      sidetrack_go i (dispatch_process_by_first_event i p s) kept rest

/-- Scheduler::sidetrack_processes for core i. -/
def sidetrack_processes (i : Nat) (s : Sched) : Option Sched :=
  sidetrack_go i s [] (s.processes.getD i [])

/-- Scan phase of Scheduler::update_waiting_list: decrement the front IO
event of every process in waiting[i]; returns (remaining waiting list,
processes to dispatch after the scan, processes newly finished).  The
source asserts the front event is IO with duration > 0. -/
def uw_scan (timer : Nat) : List Process → List Process × List Process × List Process
  | [] => ([], [], [])
  | p :: rest =>
    match p.events with
    | [] =>
      let (w, d, f) := uw_scan timer rest
      (p :: w, d, f)
    | e :: es =>
      let d' := e.duration - 1
      if d' = 0 then
        match es with
        | [] =>
          let fin := if p.finish_time.isNone then some timer else none
          let p' := { p with events := [], finish_time := fin }
          let (w, d, f) := uw_scan timer rest
          (w, d, p' :: f)
        | _ =>
          let p' := { p with events := es }
          let (w, d, f) := uw_scan timer rest
          (w, p' :: d, f)
      else
        let p' := { p with events := { e with duration := d' } :: es }
        let (w, d, f) := uw_scan timer rest
        (p' :: w, d, f)

/-- Scheduler::update_waiting_list for core i: scan, then append the
finished processes to `finished`, then run the deferred dispatches. -/
def update_waiting_list (i : Nat) (s : Sched) : Sched :=
  let r := uw_scan s.timer (s.waiting.getD i [])
  let s := { s with waiting := s.waiting.set i r.1, finished := s.finished ++ r.2.2 }
  r.2.1.foldl (fun s p => dispatch_process_by_first_event i p s) s

/-- Scheduler::update_running for core i: decrement the front CPU event of
the running process; when it drains, pop it and either dispatch by the new
front event or append to `finished`.  Note that in the finished branch the
source does NOT touch finish_time.  The running slot is cleared only in
the drained branch. -/
def update_running (i : Nat) (s : Sched) : Sched :=
  match s.running.getD i none with
  | none => s
  | some p =>
    match p.events with
    | [] => s
    | e :: es =>
      let d' := e.duration - 1
      if d' = 0 then
        let p' := { p with events := es }
        let s :=
          if es.isEmpty then { s with finished := s.finished ++ [p'] }
          else dispatch_process_by_first_event i p' s
        { s with running := s.running.set i none }
      else
        { s with running := s.running.set i (some { p with events := { e with duration := d' } :: es }) }

/-- Body of the per-core loop of RoundRobinPolicy::operator() once
ready[i] was found nonempty with head p: pop the head, install it as
running[i], and split its front event when duration > quantum, pushing a
fresh CPU event of duration q that preserves resource_usage.  The source
asserts the front event list nonempty and of CPU kind. -/
def rr_body (q i : Nat) (p : Process) (rest : List Process) (s : Sched) : Sched :=
  let p' :=
    match p.events with
    | [] => p
    | e :: es =>
      if q < e.duration then
        { p with events :=
            { kind := EventKind.Cpu, duration := q, resource_usage := e.resource_usage }
              :: { e with duration := e.duration - q } :: es }
      else p
  { s with ready := s.ready.set i rest, running := s.running.set i (some p') }

/-- The for-loop of RoundRobinPolicy::operator(): iterate thread_idx over
0..threads_count-1, but `return` from the WHOLE loop as soon as some
ready[thread_idx] is empty, and overwrite running[thread_idx]
unconditionally.  `fuel` counts the remaining iterations
(threads_count - i). -/
def rr_loop (q : Nat) : Nat → Nat → Sched → Sched
  | 0, _, s => s
  | Nat.succ fuel, i, s =>
    match s.ready.getD i [] with
    | [] => s
    | p :: rest => rr_loop q fuel (i + 1) (rr_body q i p rest s)

/-- RoundRobinPolicy::operator() with quantum q. -/
def roundRobinPolicy (q : Nat) (s : Sched) : Sched :=
  rr_loop q s.threads_count 0 s

/-- One iteration of Scheduler::step's per-core loop for core i:
sidetrack, waiting advance, running advance, policy invocation when the
slot is empty, the no-split safety net, and the cpu_usage sampling.  The
throughput update is float telemetry and omitted. -/
def step_core (policy : Sched → Sched) (i : Nat) (s : Sched) : Option Sched :=
  match sidetrack_processes i s with
  | none => none
  | some s =>
    let s := update_waiting_list i s
    let s := update_running i s
    let s := if (s.running.getD i none).isNone then policy s else s
    let s :=
      if (s.running.getD i none).isNone && !(s.ready.getD i []).isEmpty then
        match s.ready.getD i [] with
        | [] => s
        | p :: rest => { s with running := s.running.set i (some p), ready := s.ready.set i rest }
      else s
    let s :=
      match s.running.getD i none with
      | some p =>
        match p.events with
        | e :: _ => { s with cpu_usage := s.cpu_usage.set i e.resource_usage }
        | [] => s
      | none => s
    let s := if complete s then { s with cpu_usage := s.cpu_usage.map (fun _ => 0) } else s
    some s

/-- The per-core loop of Scheduler::step. -/
def step_go (policy : Sched → Sched) : Nat → Nat → Sched → Option Sched
  | 0, _, s => some s
  | Nat.succ fuel, i, s =>
    match step_core policy i s with
    | none => none
    | some s => step_go policy fuel (i + 1) s

/-- Scheduler::step: run the per-core loop for threads_count cores, then
increment the timer. -/
def step (policy : Sched → Sched) (s : Sched) : Option Sched :=
  match step_go policy s.threads_count 0 s with
  | none => none
  | some s => some { s with timer := s.timer + 1 }

/-- n consecutive step() calls. -/
def stepN (policy : Sched → Sched) : Nat → Sched → Option Sched
  | 0, s => some s
  | Nat.succ n, s =>
    match step policy s with
    | none => none
    | some s => stepN policy n s

/-- Scheduler::average_waiting_time: 0 on empty `finished`; otherwise sum
start_time - arrival over the finished processes that have a start_time,
and divide by finished.size() (integer division). -/
def average_waiting_time (s : Sched) : Nat :=
  if s.finished.isEmpty then 0
  else
    (s.finished.foldl
      (fun acc p =>
        match p.start_time with
        | none => acc
        | some st => acc + (st - p.arrival)) 0) / s.finished.length

/-- Modelled from the spec (section 4.7, Metrics): the mean of
start_time - arrival across finished, with processes without a start_time
skipped from both the numerator and the denominator, and 0 when finished
is empty.  This is the reference the source's average_waiting_time is
compared against. -/
def spec_average_waiting_time (s : Sched) : Nat :=
  let w := s.finished.filterMap (fun p => p.start_time.map (fun st => st - p.arrival))
  if w.isEmpty then 0 else w.sum / w.length

end SimOs

namespace SimOs.Lang

/-
Shallow embedding of the scenario-DSL parser, src/src/lang/Parser.cpp.
Tokens and spans are from src/src/lang/Token.hpp and Span.hpp.  The file
lang/Ast.hpp is not under src/; its node shapes are modelled from the
spec (section 4.3, flat arena of statements and expressions referencing
by index) and from how Parser.cpp constructs each node (the evaluator's
static_assert fixes ExpressionKind at nine alternatives).

The parser's optionals are modelled by PRes: `ok` is an engaged optional,
`err` is a returned std::nullopt (with the state as mutated so far, the
diagnostics of std::println collected in `errors`), and `crash` is an
assert(false) abort of the whole process (the unhandled-primary default
branch).  Recursion is fuelled; exhausted fuel is also mapped to `crash`
and is never reached at the concrete inputs evaluated below.
-/

inductive TokenKind where
  | LeftParen | RightParen | LeftBracket | RightBracket | LeftCurly | RightCurly
  | Comma | Keyword | Identifier | StringLiteral | Number | ColonColon | DotDot
deriving DecidableEq

structure Span where
  start : Nat := 0
  stop : Nat := 0
deriving DecidableEq

/-- Span::join. -/
def Span.join (lhs rhs : Span) : Span := { start := lhs.start, stop := rhs.stop }

structure Token where
  lexeme : String
  kind : TokenKind
  span : Span
deriving DecidableEq

/-- Expression nodes reference other nodes by arena index. -/
abbrev ExpressionId := Nat

inductive ExpressionKind where
  | Call (identifier : Token) (arguments : List ExpressionId)
  | StringLiteral (literal : Token)
  | Number (number : Token)
  | List (elements : List ExpressionId)
  | Tuple (elements : List ExpressionId)
  | Variable (name : Token)
  | Constant (name : Token) (value : ExpressionId)
  | Range (start : Token) (stop : Token)
  | For (range : ExpressionId) (body : List ExpressionId)
deriving DecidableEq

structure Expression where
  kind : ExpressionKind
  span : Span
  id : Nat
deriving DecidableEq

/-- Statement::kind is std::variant<ExpressionId>. -/
structure Statement where
  kind : ExpressionId
  span : Span
  id : Nat
deriving DecidableEq

structure Ast where
  statements : List Statement
  expressions : List Expression
deriving DecidableEq

/-- The mutable fields of class Parser (tokens is passed around
explicitly), plus the stderr diagnostics the parser printed. -/
structure PState where
  cursor : Nat := 0
  statements : List Statement := []
  expressions : List Expression := []
  expression_id : Nat := 0
  errors : List String := []
deriving DecidableEq

inductive PRes (α : Type) where
  | ok : α → PState → PRes α
  | err : PState → PRes α
  | crash : PRes α
deriving DecidableEq

/-- Parser::has_more. -/
def has_more (tokens : List Token) (st : PState) : Bool :=
  st.cursor < tokens.length

/-- Parser::peek. -/
def peek (tokens : List Token) (st : PState) (offset : Nat) : Option Token :=
  tokens.get? (st.cursor + offset)

/-- Parser::next. -/
def next (tokens : List Token) (st : PState) : Option Token × PState :=
  if has_more tokens st then (tokens.get? st.cursor, { st with cursor := st.cursor + 1 })
  else (none, st)

def report (st : PState) (msg : String) : PState :=
  { st with errors := st.errors ++ [msg] }

/-- Parser::consume_then_match: consume a token and require its kind;
both failure modes print a diagnostic naming the expected and actual
token kinds (the span is not part of either message) and return nullopt. -/
def consume_then_match (tokens : List Token) (expected : TokenKind) (st : PState) :
    PRes Token :=
  match next tokens st with
  | (none, st) => PRes.err (report st "Expected token kind but ran out of tokens")
  | (some t, st) =>
    if t.kind = expected then PRes.ok t st
    else PRes.err (report st "Expected token kind but got another kind")

/-- Parser::identifier. -/
def identifier (tokens : List Token) (st : PState) : PRes Token :=
  consume_then_match tokens TokenKind.Identifier st

/-- Ast::emplace_expression together with the expression_id++ at each
call site: the node is appended and ids are assigned monotonically. -/
def emplace_expr (st : PState) (k : ExpressionKind) (sp : Span) : Expression × PState :=
  let e : Expression := { kind := k, span := sp, id := st.expression_id }
  (e, { st with expressions := st.expressions ++ [e], expression_id := st.expression_id + 1 })

/-- Ast::expression_by_id; ids handed out by emplace_expr are always
in range, the default is never reached. -/
def expression_by_id (st : PState) (id : Nat) : Expression :=
  (st.expressions.get? id).getD
    { kind := ExpressionKind.List [], span := {}, id := 0 }

/-- Parser::string_literal. -/
def string_literal (tokens : List Token) (st : PState) : PRes Expression :=
  match consume_then_match tokens TokenKind.StringLiteral st with
  | PRes.ok token st =>
    let r := emplace_expr st (ExpressionKind.StringLiteral token) token.span
    PRes.ok r.1 r.2
  | PRes.err st => PRes.err st
  | PRes.crash => PRes.crash

/-- Parser::number. -/
def number (tokens : List Token) (st : PState) : PRes Expression :=
  match consume_then_match tokens TokenKind.Number st with
  | PRes.ok token st =>
    let r := emplace_expr st (ExpressionKind.Number token) token.span
    PRes.ok r.1 r.2
  | PRes.err st => PRes.err st
  | PRes.crash => PRes.crash

/-- The identifier-only arm of Parser::primary_expression. -/
def variable_expr (tokens : List Token) (token : Token) (st : PState) : PRes Expression :=
  match consume_then_match tokens TokenKind.Identifier st with
  | PRes.ok _ st =>
    let r := emplace_expr st (ExpressionKind.Variable token) token.span
    PRes.ok r.1 r.2
  | PRes.err st => PRes.err st
  | PRes.crash => PRes.crash

/-- Parser::range: Number, DotDot, Number. -/
def range (tokens : List Token) (st : PState) : PRes Expression :=
  match consume_then_match tokens TokenKind.Number st with
  | PRes.ok start_range st =>
    (match consume_then_match tokens TokenKind.DotDot st with
     | PRes.ok _ st =>
       (match consume_then_match tokens TokenKind.Number st with
        | PRes.ok end_range st =>
          let r := emplace_expr st (ExpressionKind.Range start_range end_range)
            (Span.join start_range.span end_range.span)
          PRes.ok r.1 r.2
        | PRes.err st => PRes.err st
        | PRes.crash => PRes.crash)
     | PRes.err st => PRes.err st
     | PRes.crash => PRes.crash)
  | PRes.err st => PRes.err st
  | PRes.crash => PRes.crash

mutual

/-- Parser::expression: a Keyword token "for" enters for_loop; every
other token (the Keyword case falls through) goes to primary_expression.
The initial TRY(peek()) returns nullopt silently when out of tokens. -/
def expression (tokens : List Token) (fuel : Nat) (st : PState) : PRes Expression :=
  match fuel with
  | 0 => PRes.crash
  | fuel + 1 =>
    match peek tokens st 0 with
    | none => PRes.err st
    | some t =>
      if t.kind = TokenKind.Keyword then
        if t.lexeme = "for" then for_loop tokens fuel st
        else primary_expression tokens fuel st
      else primary_expression tokens fuel st

/-- Parser::primary_expression.  The default branch is assert(false):
the process aborts, modelled by crash. -/
def primary_expression (tokens : List Token) (fuel : Nat) (st : PState) : PRes Expression :=
  match fuel with
  | 0 => PRes.crash
  | fuel + 1 =>
    match peek tokens st 0 with
    | none => PRes.err (report st "Expected primary expression but ran out of tokens")
    | some token =>
      match token.kind with
      | TokenKind.Identifier =>
        (match peek tokens st 1 with
         | some t1 =>
           if t1.kind = TokenKind.LeftParen then call_expression tokens fuel st
           else if t1.kind = TokenKind.ColonColon then constant_definition tokens fuel st
           else variable_expr tokens token st
         | none => variable_expr tokens token st)
      | TokenKind.StringLiteral => string_literal tokens st
      | TokenKind.Number => number tokens st
      | TokenKind.LeftBracket => list tokens fuel st
      | TokenKind.LeftParen => tuple tokens fuel st
      | _ => PRes.crash

/-- Parser::call_expression. -/
def call_expression (tokens : List Token) (fuel : Nat) (st : PState) : PRes Expression :=
  match fuel with
  | 0 => PRes.crash
  | fuel + 1 =>
    match identifier tokens st with
    | PRes.ok callee st =>
      (match call_expression_arguments tokens fuel st with
       | PRes.ok arguments st =>
         let end_span :=
           if arguments.isEmpty then callee.span
           else (expression_by_id st (arguments.getLastD 0)).span
         let r := emplace_expr st (ExpressionKind.Call callee arguments)
           (Span.join callee.span end_span)
         PRes.ok r.1 r.2
       | PRes.err st => PRes.err st
       | PRes.crash => PRes.crash)
    | PRes.err st => PRes.err st
    | PRes.crash => PRes.crash

/-- Parser::call_expression_arguments: the leading
(void)consume_then_match(LeftParen) discards failure and continues. -/
def call_expression_arguments (tokens : List Token) (fuel : Nat) (st : PState) :
    PRes (List ExpressionId) :=
  match fuel with
  | 0 => PRes.crash
  | fuel + 1 =>
    let st :=
      match consume_then_match tokens TokenKind.LeftParen st with
      | PRes.ok _ st => st
      | PRes.err st => st
      | PRes.crash => st
    args_loop tokens fuel st []

/-- The collection loop of call_expression_arguments; running out of
tokens before the RightParen silently ends the loop with the arguments
collected so far. -/
def args_loop (tokens : List Token) (fuel : Nat) (st : PState) (acc : List ExpressionId) :
    PRes (List ExpressionId) :=
  match fuel with
  | 0 => PRes.crash
  | fuel + 1 =>
    match peek tokens st 0 with
    | none => PRes.ok acc st
    | some t =>
      match t.kind with
      | TokenKind.RightParen =>
        (match consume_then_match tokens TokenKind.RightParen st with
         | PRes.ok _ st => PRes.ok acc st
         | PRes.err st => PRes.err st
         | PRes.crash => PRes.crash)
      | TokenKind.Comma =>
        (match consume_then_match tokens TokenKind.Comma st with
         | PRes.ok _ st => args_loop tokens fuel st acc
         | PRes.err st => PRes.err st
         | PRes.crash => PRes.crash)
      | _ =>
        (match expression tokens fuel st with
         | PRes.ok e st => args_loop tokens fuel st (acc ++ [e.id])
         | PRes.err st => PRes.err st
         | PRes.crash => PRes.crash)

/-- Parser::list: collect elements until RightBracket; running out of
tokens also ends the loop (done stays false) and the List node is
emplaced regardless. -/
def list (tokens : List Token) (fuel : Nat) (st : PState) : PRes Expression :=
  match fuel with
  | 0 => PRes.crash
  | fuel + 1 =>
    match consume_then_match tokens TokenKind.LeftBracket st with
    | PRes.ok lb st => list_loop tokens fuel st lb [] lb.span
    | PRes.err st => PRes.err st
    | PRes.crash => PRes.crash

def list_loop (tokens : List Token) (fuel : Nat) (st : PState) (lb : Token)
    (elems : List ExpressionId) (end_span : Span) : PRes Expression :=
  match fuel with
  | 0 => PRes.crash
  | fuel + 1 =>
    match peek tokens st 0 with
    | none =>
      let r := emplace_expr st (ExpressionKind.List elems) (Span.join lb.span end_span)
      PRes.ok r.1 r.2
    | some t =>
      match t.kind with
      | TokenKind.RightBracket =>
        (match consume_then_match tokens TokenKind.RightBracket st with
         | PRes.ok rb st =>
           let r := emplace_expr st (ExpressionKind.List elems) (Span.join lb.span rb.span)
           PRes.ok r.1 r.2
         | PRes.err st => PRes.err st
         | PRes.crash => PRes.crash)
      | TokenKind.Comma =>
        (match consume_then_match tokens TokenKind.Comma st with
         | PRes.ok _ st => list_loop tokens fuel st lb elems end_span
         | PRes.err st => PRes.err st
         | PRes.crash => PRes.crash)
      | _ =>
        (match expression tokens fuel st with
         | PRes.ok e st => list_loop tokens fuel st lb (elems ++ [e.id]) end_span
         | PRes.err st => PRes.err st
         | PRes.crash => PRes.crash)

/-- Parser::tuple, same collection scheme with RightParen. -/
def tuple (tokens : List Token) (fuel : Nat) (st : PState) : PRes Expression :=
  match fuel with
  | 0 => PRes.crash
  | fuel + 1 =>
    match consume_then_match tokens TokenKind.LeftParen st with
    | PRes.ok lp st => tuple_loop tokens fuel st lp [] lp.span
    | PRes.err st => PRes.err st
    | PRes.crash => PRes.crash

def tuple_loop (tokens : List Token) (fuel : Nat) (st : PState) (lp : Token)
    (elems : List ExpressionId) (end_span : Span) : PRes Expression :=
  match fuel with
  | 0 => PRes.crash
  | fuel + 1 =>
    match peek tokens st 0 with
    | none =>
      let r := emplace_expr st (ExpressionKind.Tuple elems) (Span.join lp.span end_span)
      PRes.ok r.1 r.2
    | some t =>
      match t.kind with
      | TokenKind.RightParen =>
        (match consume_then_match tokens TokenKind.RightParen st with
         | PRes.ok rp st =>
           let r := emplace_expr st (ExpressionKind.Tuple elems) (Span.join lp.span rp.span)
           PRes.ok r.1 r.2
         | PRes.err st => PRes.err st
         | PRes.crash => PRes.crash)
      | TokenKind.Comma =>
        (match consume_then_match tokens TokenKind.Comma st with
         | PRes.ok _ st => tuple_loop tokens fuel st lp elems end_span
         | PRes.err st => PRes.err st
         | PRes.crash => PRes.crash)
      | _ =>
        (match expression tokens fuel st with
         | PRes.ok e st => tuple_loop tokens fuel st lp (elems ++ [e.id]) end_span
         | PRes.err st => PRes.err st
         | PRes.crash => PRes.crash)

/-- Parser::constant_definition: identifier, ColonColon, primary. -/
def constant_definition (tokens : List Token) (fuel : Nat) (st : PState) : PRes Expression :=
  match fuel with
  | 0 => PRes.crash
  | fuel + 1 =>
    match identifier tokens st with
    | PRes.ok name st =>
      (match consume_then_match tokens TokenKind.ColonColon st with
       | PRes.ok _ st =>
         (match primary_expression tokens fuel st with
          | PRes.ok value st =>
            let r := emplace_expr st (ExpressionKind.Constant name value.id)
              (Span.join name.span value.span)
            PRes.ok r.1 r.2
          | PRes.err st => PRes.err st
          | PRes.crash => PRes.crash)
       | PRes.err st => PRes.err st
       | PRes.crash => PRes.crash)
    | PRes.err st => PRes.err st
    | PRes.crash => PRes.crash

/-- Parser::for_loop: Keyword, range, LeftCurly, then the body loop. -/
def for_loop (tokens : List Token) (fuel : Nat) (st : PState) : PRes Expression :=
  match fuel with
  | 0 => PRes.crash
  | fuel + 1 =>
    match consume_then_match tokens TokenKind.Keyword st with
    | PRes.ok for_token st =>
      (match range tokens st with
       | PRes.ok range_expression st =>
         (match consume_then_match tokens TokenKind.LeftCurly st with
          | PRes.ok left_curly st =>
            (match for_body_loop tokens fuel (peek tokens st 0) st [] left_curly.span with
             | PRes.ok r st =>
               let e := emplace_expr st (ExpressionKind.For range_expression.id r.1)
                 (Span.join for_token.span r.2)
               PRes.ok e.1 e.2
             | PRes.err st => PRes.err st
             | PRes.crash => PRes.crash)
          | PRes.err st => PRes.err st
          | PRes.crash => PRes.crash)
       | PRes.err st => PRes.err st
       | PRes.crash => PRes.crash)
    | PRes.err st => PRes.err st
    | PRes.crash => PRes.crash

/-- The body loop of Parser::for_loop.  The C++ loop's increment clause
is `current_token = next()`, so after each body expression one further
token is consumed and tested against RightCurly; the loop also ends when
tokens run out. -/
def for_body_loop (tokens : List Token) (fuel : Nat) (cur : Option Token) (st : PState)
    (body : List ExpressionId) (last_span : Span) : PRes (List ExpressionId × Span) :=
  match fuel with
  | 0 => PRes.crash
  | fuel + 1 =>
    match cur with
    | none => PRes.ok (body, last_span) st
    | some t =>
      if t.kind = TokenKind.RightCurly then PRes.ok (body, last_span) st
      else
        match expression tokens fuel st with
        | PRes.ok e st =>
          let n := next tokens st
          for_body_loop tokens fuel n.1 n.2 (body ++ [e.id]) e.span
        | PRes.err st => PRes.err st
        | PRes.crash => PRes.crash

end

/-- Parser::expression_statement. -/
def expression_statement (tokens : List Token) (fuel : Nat) (st : PState) : PRes Statement :=
  match expression tokens fuel st with
  | PRes.ok e st => PRes.ok { kind := e.id, span := e.span, id := e.id } st
  | PRes.err st => PRes.err st
  | PRes.crash => PRes.crash

/-- The while loop of Parser::parse: parse a statement; push it on
success; on failure just continue from wherever the cursor stands; when
no tokens remain, return the arena as the (always engaged) optional. -/
def parse_loop (tokens : List Token) (fuel : Nat) (st : PState) : PRes Ast :=
  match fuel with
  | 0 => PRes.crash
  | fuel + 1 =>
    if has_more tokens st then
      match expression_statement tokens fuel st with
      | PRes.ok stmt st =>
        parse_loop tokens fuel { st with statements := st.statements ++ [stmt] }
      | PRes.err st => parse_loop tokens fuel st
      | PRes.crash => PRes.crash
    else
      PRes.ok { statements := st.statements, expressions := st.expressions } st

/-- Parser::parse. -/
def parse (tokens : List Token) (fuel : Nat) : PRes Ast :=
  parse_loop tokens fuel {}

/-- True exactly on the err alternative, the modelled nullopt return. -/
def is_err {α : Type} : PRes α → Bool
  | PRes.err _ => true
  | _ => false

end SimOs.Lang

namespace SimOs

/-
Shallow embedding of Interpreter::spawn_random_process_builtin
(src/src/lang/Interpreter.hpp) and Util::random_natural
(src/src/Util.hpp).  Randomness is modelled by an explicit entropy
stream: a list of naturals feeding std::uniform_int_distribution draws
(the stream element is reduced into the distribution's support) and a
list of rationals feeding random_float.  The builtin's spawned_pids
vector is a function-local static: it lives for the whole program run,
is threaded through here explicitly, and no operation ever removes
elements from it.
-/

/-- Util::random_natural: 0 when max is 0 (without consuming entropy),
else a draw from the inclusive range [min, max]. -/
def random_natural (mn mx : Nat) (g : List Nat) : Nat × List Nat :=
  if mx = 0 then (0, g)
  else
    match g with
    | [] => (mn, [])
    | h :: rest => (mn + h % (mx + 1 - mn), rest)

/-- Util::random_float (only its value matters downstream). -/
def random_float (fg : List Rat) : Rat × List Rat :=
  (fg.headD 0, fg.tail)

/-- The pid redraw loop of spawn_random_process_builtin:
  auto pid = random_natural(0, max_processes);
  while (contains(spawned_pids, pid)) pid = random_natural(0, max_processes);
When max_processes = 0 every draw is 0 without consuming entropy, so the
loop diverges as soon as 0 was already spawned; otherwise each draw
consumes one stream element, and a stream prefix exhausted without an
unused pid models the loop never exiting.  Returns none on divergence. -/
def pid_retry_go (mx : Nat) (spawned : List Nat) : List Nat → Option (Nat × List Nat)
  | [] => none
  | h :: rest =>
    let p := h % (mx + 1)
    if p ∈ spawned then pid_retry_go mx spawned rest else some (p, rest)

def pid_retry_loop (mx : Nat) (spawned : List Nat) (g : List Nat) :
    Option (Nat × List Nat) :=
  if mx = 0 then (if 0 ∈ spawned then none else some (0, g))
  else pid_retry_go mx spawned g

/-- Interpreter::process_random_event: kind from random_natural(0, 1),
duration from random_natural(1, max_single_event_duration),
resource_usage = max(0.01, random_float()). -/
def process_random_event (s : Sched) (g : List Nat) (fg : List Rat) :
    Event × List Nat × List Rat :=
  let k := random_natural 0 1 g
  let kind := if k.1 = 0 then EventKind.Cpu else EventKind.Io
  let d := random_natural 1 s.max_single_event_duration k.2
  let f := random_float fg
  ({ kind := kind, duration := d.1, resource_usage := max (1 / 100 : Rat) f.1 }, d.2, f.2)

def gen_events (s : Sched) : Nat → List Nat → List Rat → List Event × List Nat × List Rat
  | 0, g, fg => ([], g, fg)
  | n + 1, g, fg =>
    let e := process_random_event s g fg
    let r := gen_events s n e.2.1 e.2.2
    (e.1 :: r.1, r.2.1, r.2.2)

/-- Interpreter::spawn_random_process_builtin: draw an unused pid (none
models the nonterminating redraw loop), record it in spawned_pids, draw
arrival and a burst list, and emplace the process named "Process" into
the engine. -/
def spawn_random_process_builtin (spawned : List Nat) (s : Sched)
    (g : List Nat) (fg : List Rat) :
    Option (List Nat × Sched × List Nat × List Rat) :=
  match pid_retry_loop s.max_processes spawned g with
  | none => none
  | some (pid, g) =>
    let spawned := spawned ++ [pid]
    let a := random_natural 0 s.max_arrival_time g
    let c := random_natural 1 s.max_events_per_process a.2
    let ev := gen_events s c.1 c.2 fg
    some (spawned, emplace_process "Process" pid a.1 ev.1 s, ev.2.1, ev.2.2)

/-- The Round Robin policy at its default quantum 5. -/
def rr5 : Sched → Sched := roundRobinPolicy 5

/-- Scenario for C1: one process, a single 1-tick CPU burst, arrival 0. -/
def sC1 : Sched := emplace_process "A" 1 0 [⟨EventKind.Cpu, 1, 1⟩] initSched

/-- Scenario for C2 on two cores: pid 1 (1-tick CPU burst) lands on core 0,
pid 2 (12-tick CPU burst) on core 1. -/
def sC2 : Sched :=
  emplace_process "B" 2 0 [⟨EventKind.Cpu, 12, 1⟩]
    (emplace_process "A" 1 0 [⟨EventKind.Cpu, 1, 1⟩]
      { initSched with threads_count := 2 })

/-- Observation for C2: the running slot of core 1 after k steps. -/
def runC2 (k : Nat) : Option (Option (Nat × List Event)) :=
  (stepN rr5 k sC2).map fun s => (s.running.getD 1 none).map fun p => (p.pid, p.events)

/-- Scenario for C3 on one core: two processes with the same pid 1, both
arriving at tick 0, so the second one collides at admission. -/
def sC3 : Sched :=
  emplace_process "B" 1 0 [⟨EventKind.Cpu, 1, 1⟩]
    (emplace_process "A" 1 0 [⟨EventKind.Cpu, 1, 1⟩]
      { initSched with threads_count := 1 })

/-- Scenario for C4: one process whose bursts are CPU 1, IO 1, CPU 1, so
it re-enters the ready path after its IO burst. -/
def sC4 : Sched :=
  emplace_process "B" 1 0
    [⟨EventKind.Cpu, 1, 1⟩, ⟨EventKind.Io, 1, 1⟩, ⟨EventKind.Cpu, 1, 1⟩] initSched

/-- Scenario for C5: two emplace_process calls with the same pid 1 on a
fresh engine; they land in the arrival queues of cores 0 and 1. -/
def sC5 : Sched :=
  emplace_process "B" 1 0 [⟨EventKind.Cpu, 1, 1⟩]
    (emplace_process "A" 1 0 [⟨EventKind.Cpu, 1, 1⟩] initSched)

/-- Scenario for C6 on two cores under Round Robin: pids 1 and 3 arrive
on core 0 at tick 1, pids 2 and 4 arrive on core 1 at tick 0. -/
def sC6 : Sched :=
  emplace_process "X4" 4 0 [⟨EventKind.Cpu, 2, 1⟩]
    (emplace_process "X3" 3 1 [⟨EventKind.Cpu, 2, 1⟩]
      (emplace_process "X2" 2 0 [⟨EventKind.Cpu, 5, 1⟩]
        (emplace_process "X1" 1 1 [⟨EventKind.Cpu, 2, 1⟩]
          { initSched with threads_count := 2 })))

/-- Scenario for C7 on one core: pid 1 runs IO 2 then CPU 1 (so its
start_time is set at tick 2 with arrival 0), pid 2 is pure IO and
finishes without ever obtaining a start_time. -/
def sC7 : Sched :=
  emplace_process "B" 2 0 [⟨EventKind.Io, 4, 1⟩]
    (emplace_process "A" 1 0 [⟨EventKind.Io, 2, 1⟩, ⟨EventKind.Cpu, 1, 1⟩]
      { initSched with threads_count := 1 })

/-- Witness process for C8: a single CPU burst of 7 ticks. -/
def pc8 : Process :=
  { name := "C", pid := 9, arrival := 0,
    events := [⟨EventKind.Cpu, 7, 1⟩] }

end SimOs

namespace SimOs.Lang

/-- Token sequence for C9, corresponding to the source text
`foo() for 1`: a well-formed call statement followed by a for statement
that runs out of tokens in the middle of its range. -/
def toksC9 : List Token :=
  [ { lexeme := "foo", kind := TokenKind.Identifier, span := { start := 0, stop := 3 } },
    { lexeme := "(", kind := TokenKind.LeftParen, span := { start := 3, stop := 4 } },
    { lexeme := ")", kind := TokenKind.RightParen, span := { start := 4, stop := 5 } },
    { lexeme := "for", kind := TokenKind.Keyword, span := { start := 6, stop := 9 } },
    { lexeme := "1", kind := TokenKind.Number, span := { start := 10, stop := 11 } } ]

end SimOs.Lang

namespace SimOs

theorem getD_set_self {α : Type} (l : List α) (i : Nat) (x d : α) (h : i < l.length) :
    (l.set i x).getD i d = x := by
  rw [List.getD_eq_getElem _ _ (by simpa using h)]
  exact List.getElem_set_self _

theorem waiting_fold_eq (l : List Process) (acc : Nat) :
    l.foldl
        (fun a p => match p.start_time with | none => a | some st => a + (st - p.arrival)) acc
      = acc + (l.filterMap fun p => p.start_time.map fun st => st - p.arrival).sum := by
  induction l generalizing acc with
  | nil => simp
  | cons p t ih =>
    cases h : p.start_time with
    | none => simp [h, ih]
    | some st =>
      simp [h, ih]
      omega

/-- C1: the claim says that when the running process pops its last event
during the advance-running phase, it ends the step in `finished` with
finish_time set to the step's entry timer.  The code appends it to
`finished` but never assigns finish_time in update_running: process "A"
(one 1-tick CPU burst, arrival 0) completes the run after two steps, yet
its finish_time is still none where the claim requires some 1. -/
theorem C1_update_running_never_sets_finish_time :
    (stepN rr5 2 sC1).map (fun s =>
        (complete s, s.finished.map fun p => (p.pid, p.start_time, p.finish_time)))
      = some (true, [(1, some 0, none)]) := by decide

/-- C2: under Round Robin with quantum 5 on two cores, pid 2's 12-tick
CPU burst is installed on core 1 by the engine's no-split safety net
(the policy returned early because ready[0] was empty), and then runs
for 6 consecutive ticks, its single front event merely decremented
12 to 6 and never split or exhausted - more than the quantum allows. -/
theorem C2_quantum_bound_violated_via_safety_net :
    runC2 1 = some (some (2, [⟨EventKind.Cpu, 12, 1⟩])) ∧
    runC2 2 = some (some (2, [⟨EventKind.Cpu, 11, 1⟩])) ∧
    runC2 3 = some (some (2, [⟨EventKind.Cpu, 10, 1⟩])) ∧
    runC2 4 = some (some (2, [⟨EventKind.Cpu, 9, 1⟩])) ∧
    runC2 5 = some (some (2, [⟨EventKind.Cpu, 8, 1⟩])) ∧
    runC2 6 = some (some (2, [⟨EventKind.Cpu, 7, 1⟩])) ∧
    runC2 7 = some (some (2, [⟨EventKind.Cpu, 6, 1⟩])) :=
  ⟨by decide, by decide, by decide, by decide, by decide, by decide, by decide⟩

/-- C3: the claim says step() always terminates and that a process
rejected at admission is dropped with the scan advancing past it.  In
the code the rejection branches execute `continue` without advancing the
iterator or erasing, so the scan re-tests the same element with
unchanged state forever; with two processes of pid 1 arriving at tick 0
on core 0, step() diverges (modelled by none). -/
theorem C3_admission_rejection_diverges :
    (sC3.processes.getD 0 []).map Process.pid = [1, 1] ∧ step rr5 sC3 = none := by decide

/-- C4: the claim says start_time, once set, is never cleared or
overwritten.  dispatch_process_by_first_event assigns nullopt when
start_time already holds a value, so process "B" (CPU 1, IO 1, CPU 1)
has start_time = some 0 while first running, but after its IO burst the
re-dispatch into ready clears it: it is none when the process runs again
and still none in `finished`. -/
theorem C4_start_time_cleared_on_redispatch :
    ((stepN rr5 1 sC4).map fun s => (s.running.getD 0 none).map Process.start_time)
        = some (some (some 0)) ∧
    ((stepN rr5 3 sC4).map fun s => (s.running.getD 0 none).map Process.start_time)
        = some (some none) ∧
    ((stepN rr5 4 sC4).map fun s => s.finished.map fun p => (p.pid, p.start_time))
        = some [(1, none)] := by decide

/-- C5 counterexample: the claim says pids are unique across the whole
simulation after every emplace_process.  emplace_process performs no pid
check: after inserting "A" and then "B", both with pid 1, the engine
holds two distinct processes with equal pid (in the arrival queues of
cores 0 and 1). -/
theorem C5_counterexample_duplicate_pids :
    (sC5.processes.getD 0 []).map (fun p => (p.name, p.pid)) = [("A", 1)] ∧
    (sC5.processes.getD 1 []).map (fun p => (p.name, p.pid)) = [("B", 1)] := by decide

/-- C5 amended: pid uniqueness is enforced only at admission and only
against the same core's ready queue, waiting queue and running slot -
ensure_pid_is_unique holds exactly when the pid differs from those; the
arrival queues, other cores and `finished` are never consulted, and
emplace_process checks nothing. -/
theorem C5_pid_unique_only_per_core_at_admission (s : Sched) (i pid : Nat) :
    ensure_pid_is_unique s i pid = true ↔
      ((∀ p, s.running.getD i none = some p → p.pid ≠ pid) ∧
       (∀ p ∈ s.ready.getD i [], p.pid ≠ pid) ∧
       (∀ p ∈ s.waiting.getD i [], p.pid ≠ pid)) := by
  unfold ensure_pid_is_unique
  cases h : s.running.getD i none <;> simp [h, List.all_eq_true, and_assoc]

/-- Witness for the C5 amended theorem at a concrete state and pid. -/
theorem C5_pid_unique_witness :
    (∀ p, initSched.running.getD 0 none = some p → p.pid ≠ 7) ∧
    (∀ p ∈ initSched.ready.getD 0 [], p.pid ≠ 7) ∧
    (∀ p ∈ initSched.waiting.getD 0 [], p.pid ≠ 7) :=
  (C5_pid_unique_only_per_core_at_admission initSched 0 7).mp (by decide)

/-- C6: the claim says every inserted process reaches `finished` exactly
once by the time complete() holds.  Four processes (pids 1-4) are
inserted on two cores; under Round Robin the policy's cross-core loop
overwrites the occupied running slots of other cores (losing pids 2 and
then 1), and after five steps the simulation is complete with `finished`
holding only pids 4 and 3. -/
theorem C6_processes_lost_under_round_robin :
    (sC6.processes.getD 0 []).map Process.pid = [1, 3] ∧
    (sC6.processes.getD 1 []).map Process.pid = [2, 4] ∧
    (stepN rr5 5 sC6).map (fun s => (complete s, s.finished.map Process.pid))
      = some (true, [4, 3]) := by decide

/-- C7 counterexample: the claim says processes without a start_time are
skipped from the divisor too.  In the completed sC7 run pid 1 waited 1
tick and pid 2 never obtained a start_time; the code returns
1 / 2 = 0 (dividing by all finished processes) while the mean prescribed
by the claim is 1 / 1 = 1. -/
theorem C7_counterexample_divisor_counts_all_finished :
    (stepN rr5 4 sC7).map (fun s =>
        (complete s, average_waiting_time s, spec_average_waiting_time s))
      = some (true, 0, 1) := by decide

/-- C7 amended: average_waiting_time sums start_time - arrival over the
finished processes that have a start_time but divides by the number of
ALL finished processes (integer division; 0 when finished is empty,
which Nat division also yields). -/
theorem C7_average_waiting_time_divides_by_all_finished (s : Sched) :
    average_waiting_time s
      = (s.finished.filterMap fun p => p.start_time.map fun st => st - p.arrival).sum
          / s.finished.length := by
  unfold average_waiting_time
  by_cases h : s.finished.isEmpty
  · have he : s.finished = [] := by simpa [List.isEmpty_iff] using h
    simp [he]
  · simp [h, waiting_fold_eq]

end SimOs

namespace SimOs

/-- C8: when the Round Robin policy body moves the head process p of
ready[i] into running[i] and p's front CPU event has duration d, then for
d > q the installed process's queue begins with a fresh CPU event of
duration q carrying the same resource_usage, followed by the original
event decremented to d - q, with the total burst duration preserved; for
d <= q the process is installed unmodified. -/
theorem C8_round_robin_split_correct (q i : Nat) (p : Process) (rest : List Process)
    (s : Sched) (e : Event) (es : List Event)
    (hev : p.events = e :: es) (hk : e.kind = EventKind.Cpu)
    (hready : i < s.ready.length) (hrun : i < s.running.length) :
    (rr_body q i p rest s).ready.getD i [] = rest ∧
    (q < e.duration →
      (rr_body q i p rest s).running.getD i none
        = some { p with events :=
            { kind := EventKind.Cpu, duration := q, resource_usage := e.resource_usage } ::
            { kind := EventKind.Cpu, duration := e.duration - q,
              resource_usage := e.resource_usage } :: es } ∧
      ((({ kind := EventKind.Cpu, duration := q, resource_usage := e.resource_usage } ::
          { kind := EventKind.Cpu, duration := e.duration - q,
            resource_usage := e.resource_usage } :: es).map Event.duration).sum
        = (p.events.map Event.duration).sum)) ∧
    (e.duration ≤ q → (rr_body q i p rest s).running.getD i none = some p) := by
  obtain ⟨ek, ed, er⟩ := e
  have hk' : ek = EventKind.Cpu := hk
  subst hk'
  refine ⟨?_, ?_, ?_⟩
  · simp only [rr_body]
    exact getD_set_self _ _ _ _ hready
  · intro hd
    have hdn : q < ed := hd
    constructor
    · simp only [rr_body, hev]
      rw [getD_set_self _ _ _ _ hrun]
      simp [hdn]
    · simp only [hev, List.map_cons, List.sum_cons]
      omega
  · intro hd
    have hdn : ¬ q < ed := Nat.not_lt.mpr hd
    simp only [rr_body, hev]
    rw [getD_set_self _ _ _ _ hrun]
    simp [hdn]

/-- Witness for C8 at quantum 3, core 0, a 7-tick CPU burst: the split
yields CPU 3 then CPU 4 with the total of 7 preserved. -/
theorem C8_split_witness :
    (rr_body 3 0 pc8 [] initSched).ready.getD 0 [] = [] ∧
    (3 < (7 : Nat) →
      (rr_body 3 0 pc8 [] initSched).running.getD 0 none
        = some { pc8 with events := [⟨EventKind.Cpu, 3, 1⟩, ⟨EventKind.Cpu, 4, 1⟩] } ∧
      (([⟨EventKind.Cpu, 3, 1⟩, (⟨EventKind.Cpu, 4, 1⟩ : Event)].map Event.duration).sum
        = (pc8.events.map Event.duration).sum)) ∧
    ((7 : Nat) ≤ 3 → (rr_body 3 0 pc8 [] initSched).running.getD 0 none = some pc8) :=
  C8_round_robin_split_correct 3 0 pc8 [] initSched ⟨EventKind.Cpu, 7, 1⟩ []
    rfl rfl (by decide) (by decide)

end SimOs

namespace SimOs.Lang

theorem parse_loop_never_err (tokens : List Token) :
    ∀ (fuel : Nat) (st : PState), is_err (parse_loop tokens fuel st) = false := by
  intro fuel
  induction fuel with
  | zero => intro st; rfl
  | succ n ih =>
    intro st
    rw [parse_loop]
    by_cases h : has_more tokens st
    · rw [if_pos h]
      cases hs : expression_statement tokens n st with
      | ok stmt st2 => exact ih _
      | err st2 => exact ih _
      | crash => rfl
    · rw [if_neg h]
      rfl

/-- C9 counterexample: the claim says a parse with a failing statement
aborts and yields no AST.  On the token sequence for `foo() for 1` the
second statement fails (the range runs out of tokens after the number),
a spanless diagnostic is recorded, and parse nevertheless returns an
engaged AST containing the one statement that did parse. -/
theorem C9_counterexample_ast_still_returned :
    parse toksC9 50 = PRes.ok
      ⟨[⟨0, ⟨0, 3⟩, 0⟩],
       [⟨ExpressionKind.Call ⟨"foo", TokenKind.Identifier, ⟨0, 3⟩⟩ [], ⟨0, 3⟩, 0⟩]⟩
      ⟨5,
       [⟨0, ⟨0, 3⟩, 0⟩],
       [⟨ExpressionKind.Call ⟨"foo", TokenKind.Identifier, ⟨0, 3⟩⟩ [], ⟨0, 3⟩, 0⟩],
       1,
       ["Expected token kind but ran out of tokens"]⟩ := by decide

/-- C9 amended: a failing statement is reported with a diagnostic naming
the expected and actual token kinds (no span), the parser resumes at the
next unconsumed token, and parse never returns the disengaged optional:
for every token sequence and fuel the result is not the err alternative
(the remaining outcomes are an engaged AST or the assert abort). -/
theorem C9_parse_skips_failed_statements (tokens : List Token) (fuel : Nat) :
    is_err (parse tokens fuel) = false :=
  parse_loop_never_err tokens fuel _

end SimOs.Lang

namespace SimOs

theorem pid_retry_go_spec_some (mx : Nat) (spawned : List Nat) :
    ∀ (g : List Nat) (pid : Nat) (g' : List Nat),
      pid_retry_go mx spawned g = some (pid, g') → pid ∉ spawned ∧ pid ≤ mx := by
  intro g
  induction g with
  | nil => intro pid g' h; simp [pid_retry_go] at h
  | cons h t ih =>
    intro pid g' hp
    by_cases hm : h % (mx + 1) ∈ spawned
    · simp [pid_retry_go, hm] at hp
      exact ih pid g' hp
    · simp [pid_retry_go, hm] at hp
      obtain ⟨h1, _⟩ := hp
      subst h1
      exact ⟨hm, Nat.lt_succ_iff.mp (Nat.mod_lt _ (Nat.succ_pos mx))⟩

theorem pid_retry_go_none_of_full (mx : Nat) (spawned : List Nat)
    (hall : ∀ pid, pid ≤ mx → pid ∈ spawned) :
    ∀ g : List Nat, pid_retry_go mx spawned g = none := by
  intro g
  induction g with
  | nil => rfl
  | cons h t ih =>
    unfold pid_retry_go
    have hm : h % (mx + 1) ∈ spawned :=
      hall _ (Nat.lt_succ_iff.mp (Nat.mod_lt _ (Nat.succ_pos mx)))
    simp [hm, ih]

theorem pid_retry_loop_spec_some (mx : Nat) (spawned : List Nat) (g : List Nat)
    (pid : Nat) (g' : List Nat) (h : pid_retry_loop mx spawned g = some (pid, g')) :
    pid ∉ spawned ∧ pid ≤ mx := by
  unfold pid_retry_loop at h
  by_cases h0 : mx = 0
  · subst h0
    by_cases hz : (0 : Nat) ∈ spawned
    · simp [hz] at h
    · simp [hz] at h
      obtain ⟨h1, _⟩ := h
      subst h1
      exact ⟨hz, Nat.le_refl 0⟩
  · simp [h0] at h
    exact pid_retry_go_spec_some mx spawned g pid g' h

theorem pid_retry_loop_none_of_full (mx : Nat) (spawned : List Nat) (g : List Nat)
    (hall : ∀ pid, pid ≤ mx → pid ∈ spawned) :
    pid_retry_loop mx spawned g = none := by
  unfold pid_retry_loop
  by_cases h0 : mx = 0
  · subst h0
    simp [hall 0 (Nat.le_refl 0)]
  · simp [h0, pid_retry_go_none_of_full mx spawned hall g]

/-- C10: spawn_random_process_builtin's spawned_pids state only ever
grows - a successful call appends exactly one pid that was not in the
set before and lies in [0, max_processes], so a pid drawn once is
excluded from every later call that sees this state (the set is a
function-local static of the program run, never cleared); and when every
pid of [0, max_processes] has already been drawn, the redraw loop never
finds a fresh pid and the call does not terminate (modelled by none). -/
theorem C10_spawn_random_pid_exclusion (spawned : List Nat) (s : Sched)
    (g : List Nat) (fg : List Rat) :
    (∀ (sp' : List Nat) (s' : Sched) (g' : List Nat) (fg' : List Rat),
        spawn_random_process_builtin spawned s g fg = some (sp', s', g', fg') →
        ∃ pid, pid ∉ spawned ∧ pid ≤ s.max_processes ∧ sp' = spawned ++ [pid])
    ∧ ((∀ pid, pid ≤ s.max_processes → pid ∈ spawned) →
        spawn_random_process_builtin spawned s g fg = none) := by
  constructor
  · intro sp' s' g' fg' h
    unfold spawn_random_process_builtin at h
    cases hpr : pid_retry_loop s.max_processes spawned g with
    | none => rw [hpr] at h; exact absurd h (by simp)
    | some pr =>
      obtain ⟨pid, g2⟩ := pr
      rw [hpr] at h
      simp only [Option.some.injEq, Prod.mk.injEq] at h
      have hp := pid_retry_loop_spec_some _ _ _ _ _ hpr
      exact ⟨pid, hp.1, hp.2, h.1.symm⟩
  · intro hall
    unfold spawn_random_process_builtin
    rw [pid_retry_loop_none_of_full _ _ g hall]

/-- Witness for C10: on a fresh spawned list the call appends the drawn
pid 0; with max_processes = 0 and pid 0 already drawn, the call never
terminates. -/
theorem C10_spawn_random_witness :
    (∃ pid, pid ∉ ([] : List Nat) ∧ pid ≤ initSched.max_processes
        ∧ ([0] : List Nat) = [] ++ [pid])
    ∧ spawn_random_process_builtin [0] { initSched with max_processes := 0 }
        [0, 1] [1] = none :=
  ⟨(C10_spawn_random_pid_exclusion [] initSched [0, 0, 0, 0] [1]).1 [0] _ _ _ rfl,
   (C10_spawn_random_pid_exclusion [0] { initSched with max_processes := 0 } [0, 1] [1]).2
     (fun pid hp => by
        have h0 : pid = 0 := Nat.le_zero.mp hp
        subst h0
        simp)⟩

end SimOs
